import Mathlib

/-!
Verification of the tone-adjustment core of the fr-online-product-studio
repository: the parametric tone curve (`NumpyToneAdjuster`), the statistical
feature extractor (`NumpyFeatureExtractor`), the parameter-estimation sample
preparation (`estimate_tone_parameters` in `scripts/train_tone_model.py`),
the training orchestrator guard, and the predictor component ordering
(`SklearnTonePredictor.predict`).

Pixel channels are 8-bit unsigned integers, modelled as `ℕ` with explicit
`≤ 255` bounds where the numpy arrays are `uint8`.  The float arithmetic of
the pipeline is modelled over `ℝ` (for the tone curve, whose `np.power` is a
real power) and over `ℚ` (for the feature statistics, whose operations are
field operations on decimal constants), with `np.clip(v, lo, hi)` as
`min hi (max lo v)` and `.astype(np.uint8)` as truncation (floor, the
values being nonnegative after the clip).
-/

namespace FrStudio

/-- One RGBA pixel as stored in a `np.array` of a PIL RGBA image
(four `uint8` channels). -/
structure RGBA where
  r : ℕ
  g : ℕ
  b : ℕ
  a : ℕ
deriving DecidableEq, Repr

/-- `ToneParameters` from `fr_studio/application/tone_adjuster.py`:
immutable triple (brightness, contrast, gamma). -/
structure ToneParameters where
  brightness : ℝ
  contrast : ℝ
  gamma : ℝ

/-- `np.clip(normalized, 0, 1)` from `NumpyToneAdjuster._apply_tone_curve`. -/
noncomputable def clip01 (x : ℝ) : ℝ := min 1 (max 0 x)

/-- `NumpyToneAdjuster._apply_tone_curve` on one channel value:
`y = (clip((x * c + b) / 255, 0, 1))^γ * 255`. -/
noncomputable def applyToneCurve (x : ℝ) (p : ToneParameters) : ℝ :=
  clip01 ((x * p.contrast + p.brightness) / 255) ^ p.gamma * 255

/-- `np.clip(result, 0, 255).astype(np.uint8)` from `NumpyToneAdjuster.adjust`
on one channel value: clip to `[0, 255]` then truncate to an unsigned byte. -/
noncomputable def quantize (y : ℝ) : ℕ := (⌊min 255 (max 0 y)⌋).toNat

/-- `NumpyToneAdjuster.adjust` on one pixel: the tone curve is applied to the
three RGB channels, the alpha channel is concatenated back unchanged, and the
whole result goes through `np.clip(·, 0, 255).astype(np.uint8)`. -/
noncomputable def adjustPixel (px : RGBA) (p : ToneParameters) : RGBA :=
  ⟨quantize (applyToneCurve px.r p), quantize (applyToneCurve px.g p),
   quantize (applyToneCurve px.b p), quantize px.a⟩

/-- `NumpyToneAdjuster.adjust` on a whole image, the image flattened to its
list of RGBA pixels (the tone curve acts pixelwise). -/
noncomputable def adjust (img : List RGBA) (p : ToneParameters) : List RGBA :=
  img.map (fun px => adjustPixel px p)

/-- The identity parameter triple `ToneParameters(0, 1, 1)`. -/
noncomputable def identityParams : ToneParameters := ⟨0, 1, 1⟩

lemma quantize_natCast (n : ℕ) (h : n ≤ 255) : quantize (n : ℝ) = n := by
  have h0 : max 0 ((n : ℝ)) = (n : ℝ) := max_eq_right (by positivity)
  have h1 : min 255 ((n : ℝ)) = (n : ℝ) := by
    apply min_eq_right
    exact_mod_cast h
  rw [quantize, h0, h1, Int.floor_natCast, Int.toNat_natCast]

lemma applyToneCurve_id (n : ℕ) (h : n ≤ 255) :
    applyToneCurve (n : ℝ) identityParams = (n : ℝ) := by
  have h255 : (0 : ℝ) < 255 := by norm_num
  have hle : (n : ℝ) ≤ 255 := by exact_mod_cast h
  have hnorm : ((n : ℝ) * 1 + 0) / 255 = (n : ℝ) / 255 := by ring
  have hclip : clip01 ((n : ℝ) / 255) = (n : ℝ) / 255 := by
    unfold clip01
    rw [max_eq_right (by positivity), min_eq_right (by
      rw [div_le_one h255]; exact hle)]
  rw [applyToneCurve, identityParams]
  simp only [hnorm, hclip]
  rw [Real.rpow_one, div_mul_cancel₀ _ (ne_of_gt h255)]

lemma adjustPixel_id (px : RGBA) (hr : px.r ≤ 255) (hg : px.g ≤ 255)
    (hb : px.b ≤ 255) (ha : px.a ≤ 255) :
    adjustPixel px identityParams = px := by
  rw [adjustPixel, applyToneCurve_id px.r hr, applyToneCurve_id px.g hg,
    applyToneCurve_id px.b hb, quantize_natCast px.r hr,
    quantize_natCast px.g hg, quantize_natCast px.b hb, quantize_natCast px.a ha]

/-- C1: applying the tone adjustment with the identity parameters
`ToneParameters(brightness = 0, contrast = 1, gamma = 1)` to any 8-bit image
returns the image unchanged. -/
theorem adjust_identityParams_eq (img : List RGBA)
    (h : ∀ px ∈ img, px.r ≤ 255 ∧ px.g ≤ 255 ∧ px.b ≤ 255 ∧ px.a ≤ 255) :
    adjust img identityParams = img := by
  induction img with
  | nil => rfl
  | cons px rest ih =>
    have hpx := h px (List.mem_cons_self px rest)
    rw [adjust, List.map_cons]
    rw [adjust] at ih
    rw [ih (fun q hq => h q (List.mem_cons_of_mem px hq)),
      adjustPixel_id px hpx.1 hpx.2.1 hpx.2.2.1 hpx.2.2.2]

/-- Witness for C1 at a concrete one-pixel image. -/
theorem adjust_identityParams_eq_witness :
    adjust [⟨10, 128, 200, 255⟩] identityParams = [⟨10, 128, 200, 255⟩] :=
  adjust_identityParams_eq [⟨10, 128, 200, 255⟩] (by decide)

lemma quantize_le_255 (y : ℝ) : quantize y ≤ 255 := by
  rw [quantize]
  have h : ⌊min 255 (max 0 y)⌋ ≤ (255 : ℤ) := by
    have : min (255 : ℝ) (max 0 y) ≤ ((255 : ℤ) : ℝ) := by
      simpa using min_le_left (255 : ℝ) (max 0 y)
    exact Int.le_floor.mp (by simpa using Int.floor_le_floor this) |>.trans_eq rfl
  omega

lemma quantize_mono {y₁ y₂ : ℝ} (h : y₁ ≤ y₂) : quantize y₁ ≤ quantize y₂ := by
  rw [quantize, quantize]
  exact Int.toNat_le_toNat (Int.floor_le_floor
    (min_le_min (le_refl 255) (max_le_max (le_refl 0) h)))

lemma clip01_mono {x y : ℝ} (h : x ≤ y) : clip01 x ≤ clip01 y :=
  min_le_min (le_refl 1) (max_le_max (le_refl 0) h)

lemma clip01_nonneg (x : ℝ) : 0 ≤ clip01 x :=
  le_min zero_le_one (le_max_left 0 x)

/-- C3: for every input image and every parameter triple, `adjust` returns an
image with the same number of pixels (same dimensions), in the same RGBA
channel layout (forced by the `RGBA` pixel type), and with the alpha channel
passed through unchanged. -/
theorem adjust_preserves_frame (img : List RGBA) (p : ToneParameters)
    (h : ∀ px ∈ img, px.a ≤ 255) :
    (adjust img p).length = img.length ∧
      (adjust img p).map RGBA.a = img.map RGBA.a := by
  constructor
  · rw [adjust, List.length_map]
  · induction img with
    | nil => rfl
    | cons px rest ih =>
      rw [adjust, List.map_cons, List.map_cons, List.map_cons]
      rw [adjust] at ih
      have ha := h px (List.mem_cons_self px rest)
      rw [ih (fun q hq => h q (List.mem_cons_of_mem px hq))]
      show quantize (px.a : ℝ) :: _ = px.a :: _
      rw [quantize_natCast px.a ha]

/-- Witness for C3 at a concrete image and parameter triple. -/
theorem adjust_preserves_frame_witness :
    (adjust [⟨1, 2, 3, 4⟩] ⟨30, 2, 2⟩).length = ([⟨1, 2, 3, 4⟩] : List RGBA).length ∧
      (adjust [⟨1, 2, 3, 4⟩] ⟨30, 2, 2⟩).map RGBA.a =
        ([⟨1, 2, 3, 4⟩] : List RGBA).map RGBA.a :=
  adjust_preserves_frame [⟨1, 2, 3, 4⟩] ⟨30, 2, 2⟩ (by decide)

/-- C4: for every 8-bit image and every parameter triple within the
optimizer's bound ranges (brightness ∈ [-50, 50], contrast ∈ [0.5, 2.0],
gamma ∈ [0.5, 2.5]), every channel of every output pixel lies in [0, 255]
(the lower bound 0 holds by the `ℕ` channel type). -/
theorem adjust_output_bounded (img : List RGBA) (p : ToneParameters)
    (hb1 : -50 ≤ p.brightness) (hb2 : p.brightness ≤ 50)
    (hc1 : 1 / 2 ≤ p.contrast) (hc2 : p.contrast ≤ 2)
    (hg1 : 1 / 2 ≤ p.gamma) (hg2 : p.gamma ≤ 5 / 2)
    (himg : ∀ px ∈ img, px.r ≤ 255 ∧ px.g ≤ 255 ∧ px.b ≤ 255 ∧ px.a ≤ 255) :
    List.Forall (fun px => px.r ≤ 255 ∧ px.g ≤ 255 ∧ px.b ≤ 255 ∧ px.a ≤ 255)
      (adjust img p) := by
  rw [List.forall_iff_forall_mem]
  intro q hq
  rw [adjust, List.mem_map] at hq
  obtain ⟨px, _, rfl⟩ := hq
  exact ⟨quantize_le_255 _, quantize_le_255 _, quantize_le_255 _, quantize_le_255 _⟩

/-- Witness for C4 at a concrete image and in-range parameter triple. -/
theorem adjust_output_bounded_witness :
    List.Forall (fun px => px.r ≤ 255 ∧ px.g ≤ 255 ∧ px.b ≤ 255 ∧ px.a ≤ 255)
      (adjust [⟨0, 128, 255, 200⟩] ⟨25, 3 / 2, 2⟩) :=
  adjust_output_bounded [⟨0, 128, 255, 200⟩] ⟨25, 3 / 2, 2⟩
    (by norm_num) (by norm_num) (by norm_num) (by norm_num)
    (by norm_num) (by norm_num) (by decide)

lemma applyToneCurve_brightness_mono (x : ℝ) {b₁ b₂ : ℝ} (h : b₁ ≤ b₂) :
    applyToneCurve x ⟨b₁, 1, 1⟩ ≤ applyToneCurve x ⟨b₂, 1, 1⟩ := by
  rw [applyToneCurve, applyToneCurve]
  simp only
  rw [Real.rpow_one, Real.rpow_one]
  refine mul_le_mul_of_nonneg_right (clip01_mono ?_) (by norm_num)
  have : x * 1 + b₁ ≤ x * 1 + b₂ := by linarith
  exact div_le_div_of_nonneg_right this (by norm_num) |>.trans_eq rfl

/-- C5: with contrast fixed at 1 and gamma fixed at 1, increasing the
brightness parameter never decreases any RGB channel of any output pixel:
the two output images are pointwise related channel by channel. -/
theorem adjust_brightness_mono (img : List RGBA) (b₁ b₂ : ℝ) (h : b₁ ≤ b₂) :
    List.Forall₂ (fun p q => p.r ≤ q.r ∧ p.g ≤ q.g ∧ p.b ≤ q.b)
      (adjust img ⟨b₁, 1, 1⟩) (adjust img ⟨b₂, 1, 1⟩) := by
  induction img with
  | nil => exact List.Forall₂.nil
  | cons px rest ih =>
    rw [adjust, List.map_cons]
    rw [adjust] at ih
    exact List.Forall₂.cons
      ⟨quantize_mono (applyToneCurve_brightness_mono _ h),
       quantize_mono (applyToneCurve_brightness_mono _ h),
       quantize_mono (applyToneCurve_brightness_mono _ h)⟩ ih

/-- Witness for C5 at a concrete image and brightness pair. -/
theorem adjust_brightness_mono_witness :
    List.Forall₂ (fun p q => p.r ≤ q.r ∧ p.g ≤ q.g ∧ p.b ≤ q.b)
      (adjust [⟨100, 50, 0, 255⟩] ⟨0, 1, 1⟩) (adjust [⟨100, 50, 0, 255⟩] ⟨10, 1, 1⟩) :=
  adjust_brightness_mono [⟨100, 50, 0, 255⟩] 0 10 (by norm_num)

/-- C10 (implicit): for parameters with nonnegative contrast and positive
gamma, the per-channel tone curve is monotone nondecreasing in the input
channel value over [0, 255]. -/
theorem applyToneCurve_input_mono (p : ToneParameters) (hc : 0 ≤ p.contrast)
    (hg : 0 < p.gamma) (x₁ x₂ : ℝ) (h0 : 0 ≤ x₁) (h12 : x₁ ≤ x₂)
    (h255 : x₂ ≤ 255) :
    applyToneCurve x₁ p ≤ applyToneCurve x₂ p := by
  rw [applyToneCurve, applyToneCurve]
  refine mul_le_mul_of_nonneg_right ?_ (by norm_num)
  refine Real.rpow_le_rpow (clip01_nonneg _) (clip01_mono ?_) hg.le
  have : x₁ * p.contrast ≤ x₂ * p.contrast :=
    mul_le_mul_of_nonneg_right h12 hc
  have : x₁ * p.contrast + p.brightness ≤ x₂ * p.contrast + p.brightness := by
    linarith
  exact div_le_div_of_nonneg_right this (by norm_num)

/-- Witness for C10 at a concrete parameter triple and channel values. -/
theorem applyToneCurve_input_mono_witness :
    applyToneCurve 60 ⟨-10, 3 / 2, 2⟩ ≤ applyToneCurve 200 ⟨-10, 3 / 2, 2⟩ :=
  applyToneCurve_input_mono ⟨-10, 3 / 2, 2⟩ (by norm_num) (by norm_num)
    60 200 (by norm_num) (by norm_num) (by norm_num)

/-! ## Feature extractor (`NumpyFeatureExtractor`) -/

/-- `ImageFeatures` from `numpy_feature_extractor.py`: an immutable 7-tuple of
floats. -/
structure ImageFeatures where
  luminance_mean : ℝ
  luminance_std : ℝ
  dark_ratio : ℝ
  mid_ratio : ℝ
  bright_ratio : ℝ
  saturation_mean : ℝ
  saturation_std : ℝ

/-- `NumpyFeatureExtractor._calculate_luminance` (ITU-R BT.601):
`Y = 0.299*R + 0.587*G + 0.114*B`. -/
def luminance (px : RGBA) : ℚ :=
  0.299 * (px.r : ℚ) + 0.587 * (px.g : ℚ) + 0.114 * (px.b : ℚ)

/-- `NumpyFeatureExtractor._calculate_saturation` (HSV saturation, scaled):
`S = (max - min) / max` where `max > 0`, else 0, times 255. -/
def saturation (px : RGBA) : ℚ :=
  (if 0 < max (px.r : ℚ) (max (px.g : ℚ) (px.b : ℚ)) then
    (max (px.r : ℚ) (max (px.g : ℚ) (px.b : ℚ)) -
        min (px.r : ℚ) (min (px.g : ℚ) (px.b : ℚ))) /
      max (px.r : ℚ) (max (px.g : ℚ) (px.b : ℚ))
  else 0) * 255

/-- The pixels selected by the RGBA mask `alpha > 0` in
`NumpyFeatureExtractor.extract`. -/
def maskedPixels (img : List RGBA) : List RGBA := img.filter (fun px => 0 < px.a)

/-- `luminance[mask]` from `NumpyFeatureExtractor.extract`. -/
def maskedLums (img : List RGBA) : List ℚ := (maskedPixels img).map luminance

/-- `saturation[mask]` from `NumpyFeatureExtractor.extract`. -/
def maskedSats (img : List RGBA) : List ℚ := (maskedPixels img).map saturation

/-- `np.mean` of a value list. -/
def qMean (l : List ℚ) : ℚ := l.sum / l.length

/-- The mean squared deviation from the mean; `np.std` is its square root. -/
def qVar (l : List ℚ) : ℚ := (l.map (fun x => (x - qMean l) ^ 2)).sum / l.length

/-- `np.sum(masked_luminance < 50)`. -/
def darkCount (l : List ℚ) : ℕ := l.countP (fun x => decide (x < 50))

/-- `np.sum((masked_luminance >= 50) & (masked_luminance < 150))`. -/
def midCount (l : List ℚ) : ℕ :=
  l.countP (fun x => decide (50 ≤ x) && decide (x < 150))

/-- `np.sum(masked_luminance >= 150)`. -/
def brightCount (l : List ℚ) : ℕ := l.countP (fun x => decide (150 ≤ x))

/-- `NumpyFeatureExtractor.extract` on an RGBA image (flattened pixel list):
restrict luminance and saturation to the `alpha > 0` mask; if no pixel
qualifies, return the all-zero features; otherwise return means, standard
deviations, and the dark/mid/bright population ratios. -/
noncomputable def extract (img : List RGBA) : ImageFeatures :=
  if (maskedLums img).length = 0 then
    ⟨0, 0, 0, 0, 0, 0, 0⟩
  else
    ⟨(qMean (maskedLums img) : ℝ),
     Real.sqrt (qVar (maskedLums img) : ℝ),
     (darkCount (maskedLums img) : ℝ) / ((maskedLums img).length : ℝ),
     (midCount (maskedLums img) : ℝ) / ((maskedLums img).length : ℝ),
     (brightCount (maskedLums img) : ℝ) / ((maskedLums img).length : ℝ),
     (qMean (maskedSats img) : ℝ),
     Real.sqrt (qVar (maskedSats img) : ℝ)⟩

lemma count_partition (l : List ℚ) :
    darkCount l + midCount l + brightCount l = l.length := by
  induction l with
  | nil => rfl
  | cons x xs ih =>
    rw [darkCount, midCount, brightCount] at ih ⊢
    rw [List.countP_cons, List.countP_cons, List.countP_cons, List.length_cons]
    by_cases h1 : x < 50
    · have h2 : ¬(50 ≤ x) := not_le.mpr h1
      have h3 : ¬(150 ≤ x) := not_le.mpr (h1.trans (by norm_num))
      simp [h1, h2, h3]
      omega
    · by_cases h2 : x < 150
      · have h3 : ¬(150 ≤ x) := not_le.mpr h2
        have h4 : 50 ≤ x := not_lt.mp h1
        simp [h1, h2, h3, h4]
        omega
      · have h3 : 150 ≤ x := not_lt.mp h2
        have h4 : 50 ≤ x := not_lt.mp h1
        simp [h1, h2, h3, h4]
        omega

/-- C2: for every image whose `alpha > 0` mask selects at least one pixel,
the dark (< 50), mid ([50, 150)) and bright (≥ 150) luminance-bucket ratios
returned by the feature extractor sum to 1. -/
theorem feature_ratios_sum_one (img : List RGBA) (h : maskedPixels img ≠ []) :
    (extract img).dark_ratio + (extract img).mid_ratio +
      (extract img).bright_ratio = 1 := by
  have hn : (maskedLums img).length ≠ 0 := by
    rw [maskedLums, List.length_map]
    intro h0
    exact h (List.length_eq_zero.mp h0)
  rw [extract, if_neg hn]
  rw [div_add_div_same, div_add_div_same, ← Nat.cast_add, ← Nat.cast_add,
    count_partition, div_self]
  exact_mod_cast hn

/-- Witness for C2 at a concrete image with one opaque pixel. -/
theorem feature_ratios_sum_one_witness :
    (extract [⟨100, 100, 100, 255⟩]).dark_ratio +
      (extract [⟨100, 100, 100, 255⟩]).mid_ratio +
      (extract [⟨100, 100, 100, 255⟩]).bright_ratio = 1 :=
  feature_ratios_sum_one [⟨100, 100, 100, 255⟩] (by decide)

/-- C7: a fully transparent RGBA image (all alphas 0) makes the feature
extractor return the all-zero `ImageFeatures` (being a total function, it
raises no error). -/
theorem extract_all_transparent (img : List RGBA) (h : ∀ px ∈ img, px.a = 0) :
    extract img = ⟨0, 0, 0, 0, 0, 0, 0⟩ := by
  have hm : maskedPixels img = [] := by
    rw [maskedPixels, List.filter_eq_nil_iff]
    intro px hpx
    simp [h px hpx]
  have hn : (maskedLums img).length = 0 := by
    rw [maskedLums, hm, List.map_nil, List.length_nil]
  rw [extract, if_pos hn]

/-- Witness for C7 at a concrete fully transparent image. -/
theorem extract_all_transparent_witness :
    extract [⟨10, 20, 30, 0⟩, ⟨200, 5, 90, 0⟩] = ⟨0, 0, 0, 0, 0, 0, 0⟩ :=
  extract_all_transparent [⟨10, 20, 30, 0⟩, ⟨200, 5, 90, 0⟩] (by decide)

/-! ## Parameter estimator sample preparation (`estimate_tone_parameters`) -/

/-- The mask of `estimate_tone_parameters`:
`(x > 5) & (x < 250) & (y > 5) & (y < 250)` on one (original, ideal) value
pair. -/
def inFitRange (pr : ℕ × ℕ) : Bool :=
  decide (5 < pr.1) && decide (pr.1 < 250) && decide (5 < pr.2) && decide (pr.2 < 250)

/-- `x = x[mask]; y = y[mask]` of `estimate_tone_parameters`, on the list of
flattened (original, ideal) value pairs. -/
def filterSamples (pairs : List (ℕ × ℕ)) : List (ℕ × ℕ) := pairs.filter inFitRange

/-- The `if len(x) > 10000` subsampling step of `estimate_tone_parameters`;
`idx` models the index draw `np.random.choice(len(x), 10000, replace=False)`.
-/
def subsample (xs : List (ℕ × ℕ)) (idx : List ℕ) : List (ℕ × ℕ) :=
  if 10000 < xs.length then idx.filterMap (fun i => xs[i]?) else xs

/-- The sample population `estimate_tone_parameters` hands to the optimizer:
range filtering followed by the capped random subsampling. -/
def fitPopulation (pairs : List (ℕ × ℕ)) (idx : List ℕ) : List (ℕ × ℕ) :=
  subsample (filterSamples pairs) idx

lemma filterMap_index_length (xs : List (ℕ × ℕ)) (idx : List ℕ)
    (h : ∀ i ∈ idx, i < xs.length) :
    (idx.filterMap (fun i => xs[i]?)).length = idx.length := by
  induction idx with
  | nil => rfl
  | cons i rest ih =>
    rw [List.filterMap_cons]
    have hi : i < xs.length := h i (List.mem_cons_self i rest)
    rw [List.getElem?_eq_getElem hi, List.length_cons,
      ih (fun j hj => h j (List.mem_cons_of_mem i hj)), List.length_cons]

/-- C6: under range filtering, the optimizer's sample population contains
exactly the (original, ideal) pairs with both values strictly inside (5, 250)
(first two conjuncts: soundness and completeness of the filter).  The random
index draw `np.random.choice(len(x), 10000, replace=False)` happens only when
the filtered population exceeds 10000, so `idx` is hypothesized to be a list
of 10000 distinct valid indices only in that regime (`hdraw`).  Then: when
the filtered population does not exceed 10000 the optimizer receives exactly
the filtered pairs (third conjunct); in every regime the population has
exactly `min (filtered count) 10000` samples — never more than 10000 — all
of them taken from the filtered population (last two conjuncts). -/
theorem fitPopulation_spec (pairs : List (ℕ × ℕ)) (idx : List ℕ)
    (hdraw : 10000 < (filterSamples pairs).length →
      idx.length = 10000 ∧ idx.Nodup ∧
        ∀ i ∈ idx, i < (filterSamples pairs).length) :
    List.Forall (fun pr => pr ∈ pairs ∧ 5 < pr.1 ∧ pr.1 < 250 ∧ 5 < pr.2 ∧ pr.2 < 250)
        (filterSamples pairs) ∧
      List.Forall (fun pr => (5 < pr.1 ∧ pr.1 < 250 ∧ 5 < pr.2 ∧ pr.2 < 250) →
        pr ∈ filterSamples pairs) pairs ∧
      ((filterSamples pairs).length ≤ 10000 →
        fitPopulation pairs idx = filterSamples pairs) ∧
      (fitPopulation pairs idx).length = min (filterSamples pairs).length 10000 ∧
      List.Forall (fun pr => pr ∈ filterSamples pairs) (fitPopulation pairs idx) := by
  refine ⟨?_, ?_, ?_, ?_, ?_⟩
  · rw [List.forall_iff_forall_mem]
    intro pr hpr
    rw [filterSamples, List.mem_filter] at hpr
    obtain ⟨hmem, hrange⟩ := hpr
    rw [inFitRange] at hrange
    simp only [Bool.and_eq_true, decide_eq_true_eq] at hrange
    exact ⟨hmem, hrange.1.1.1, hrange.1.1.2, hrange.1.2, hrange.2⟩
  · rw [List.forall_iff_forall_mem]
    intro pr hpr hrange
    rw [filterSamples, List.mem_filter]
    refine ⟨hpr, ?_⟩
    rw [inFitRange]
    simp only [Bool.and_eq_true, decide_eq_true_eq]
    exact ⟨⟨⟨hrange.1, hrange.2.1⟩, hrange.2.2.1⟩, hrange.2.2.2⟩
  · intro hsmall
    rw [fitPopulation, subsample, if_neg (not_lt.mpr hsmall)]
  · rw [fitPopulation, subsample]
    by_cases hbig : 10000 < (filterSamples pairs).length
    · obtain ⟨hlen, _, hlt⟩ := hdraw hbig
      rw [if_pos hbig, filterMap_index_length _ _ hlt, hlen,
        min_eq_right (le_of_lt hbig)]
    · rw [if_neg hbig, min_eq_left (not_lt.mp hbig)]
  · rw [List.forall_iff_forall_mem]
    intro pr hpr
    rw [fitPopulation, subsample] at hpr
    by_cases hbig : 10000 < (filterSamples pairs).length
    · rw [if_pos hbig, List.mem_filterMap] at hpr
      obtain ⟨i, _, hget⟩ := hpr
      exact List.getElem?_mem hget
    · rw [if_neg hbig] at hpr
      exact hpr

/-- Witness for C6: 10001 in-range pairs with the index draw `0, …, 9999`. -/
theorem fitPopulation_spec_witness :
    List.Forall (fun pr => pr ∈ List.replicate 10001 ((100 : ℕ), (100 : ℕ)) ∧
        5 < pr.1 ∧ pr.1 < 250 ∧ 5 < pr.2 ∧ pr.2 < 250)
        (filterSamples (List.replicate 10001 (100, 100))) ∧
      List.Forall (fun pr => (5 < pr.1 ∧ pr.1 < 250 ∧ 5 < pr.2 ∧ pr.2 < 250) →
        pr ∈ filterSamples (List.replicate 10001 (100, 100)))
        (List.replicate 10001 (100, 100)) ∧
      ((filterSamples (List.replicate 10001 (100, 100))).length ≤ 10000 →
        fitPopulation (List.replicate 10001 (100, 100)) (List.range 10000) =
          filterSamples (List.replicate 10001 (100, 100))) ∧
      (fitPopulation (List.replicate 10001 (100, 100)) (List.range 10000)).length =
        min (filterSamples (List.replicate 10001 (100, 100))).length 10000 ∧
      List.Forall (fun pr => pr ∈ filterSamples (List.replicate 10001 (100, 100)))
        (fitPopulation (List.replicate 10001 (100, 100)) (List.range 10000)) := by
  have hself : filterSamples (List.replicate 10001 ((100 : ℕ), (100 : ℕ))) =
      List.replicate 10001 (100, 100) := by
    rw [filterSamples, List.filter_eq_self]
    intro pr hpr
    rw [List.eq_of_mem_replicate hpr]
    decide
  refine fitPopulation_spec (List.replicate 10001 (100, 100)) (List.range 10000)
    (fun _ => ⟨List.length_range 10000, List.nodup_range 10000, ?_⟩)
  intro i hi
  rw [hself, List.length_replicate]
  exact (List.mem_range.mp hi).trans (by norm_num)

/-! ## Training orchestrator (`main` of `scripts/train_tone_model.py`) -/

/-- One collected training sample: feature vector, fitted (brightness,
contrast, gamma) label, and the originating file name. -/
structure TrainingSample where
  features : List ℚ
  params : ℚ × ℚ × ℚ
  name : String

/-- Outcome of the training run after the dataset has been collected:
either the run aborts with the `Not enough training data` message before any
model is fitted, or a model is fitted and its file written. -/
inductive TrainResult where
  | insufficientData (count : ℕ)
  | modelSaved (nSamples : ℕ)
deriving DecidableEq, Repr

/-- Whether the training run wrote a model file (`models/tone_predictor.pkl`);
the fit and the pickle dump happen only on the `modelSaved` path. -/
def modelFileWritten : TrainResult → Bool
  | .insufficientData _ => false
  | .modelSaved _ => true

/-- The tail of `main` in `scripts/train_tone_model.py`, from the
`if len(features_list) < 10` guard on: abort with the sample count when fewer
than 10 samples were collected, otherwise fit and persist the model. -/
def runTraining (samples : List TrainingSample) : TrainResult :=
  if samples.length < 10 then .insufficientData samples.length
  else .modelSaved samples.length

/-- C8: when fewer than 10 training samples were collected, the run aborts
with the insufficient-data message carrying the sample count, and no model
file is written (the regression fit and the model dump are never reached). -/
theorem runTraining_insufficient (samples : List TrainingSample)
    (h : samples.length < 10) :
    runTraining samples = .insufficientData samples.length ∧
      modelFileWritten (runTraining samples) = false := by
  rw [runTraining, if_pos h]
  exact ⟨rfl, rfl⟩

/-- Witness for C8 at a concrete 1-sample dataset. -/
theorem runTraining_insufficient_witness :
    runTraining [⟨[1, 2, 3, 4, 5, 6, 7], (0, 1, 1), "a.png"⟩] =
        .insufficientData 1 ∧
      modelFileWritten (runTraining [⟨[1, 2, 3, 4, 5, 6, 7], (0, 1, 1), "a.png"⟩]) =
        false :=
  runTraining_insufficient [⟨[1, 2, 3, 4, 5, 6, 7], (0, 1, 1), "a.png"⟩]
    (by decide)

/-! ## Tone predictor (`SklearnTonePredictor.predict`) -/

/-- The training label vector `np.array([b, c, gamma])` built in
`process_single_image`: brightness at index 0, contrast at index 1, gamma at
index 2. -/
def trainingLabel (b c g : ℝ) : List ℝ := [b, c, g]

/-- `SklearnTonePredictor.predict`: extract features, run the regression
model on them (the model is the loaded `RandomForestRegressor`, abstracted as
a function from features to its 3-vector output `prediction`), and read the
components back as `ToneParameters(brightness=prediction[0],
contrast=prediction[1], gamma=prediction[2])`. -/
noncomputable def predict (model : ImageFeatures → List ℝ) (img : List RGBA) :
    ToneParameters :=
  ⟨(model (extract img)).getD 0 0, (model (extract img)).getD 1 0,
   (model (extract img)).getD 2 0⟩

/-- C9: `predict` reads the model's 3-vector output in the order
(brightness, contrast, gamma) — the order of the training labels — so a model
whose output on an image equals the training label for (b, c, g) yields
exactly `ToneParameters(b, c, g)`: the component order is never permuted
between training and inference. -/
theorem predict_label_order (model : ImageFeatures → List ℝ) (img : List RGBA)
    (b c g : ℝ) (h : model (extract img) = trainingLabel b c g) :
    predict model img = ⟨b, c, g⟩ := by
  rw [predict, h, trainingLabel]
  rfl

/-- Witness for C9 at a concrete constant model and image. -/
theorem predict_label_order_witness :
    predict (fun _ => trainingLabel 10 (6 / 5) (9 / 10)) [⟨100, 100, 100, 255⟩] =
      ⟨10, 6 / 5, 9 / 10⟩ :=
  predict_label_order (fun _ => trainingLabel 10 (6 / 5) (9 / 10))
    [⟨100, 100, 100, 255⟩] 10 (6 / 5) (9 / 10) rfl

end FrStudio
